import Mathlib

/-!
Verification of the splatt-perm tensor-completion command driver
(src/src/cmds/cmd_completion.c) and the Tucker workspace sizing helper
(src/src/tucker.c).

Machine integers (idx_t, a 64-bit unsigned type) are modelled as Nat, with an
explicit mod 2^64 wherever overflow can matter (tucker sizing).  Real values
(val_t / double) are modelled as rationals.  Functions of the completion
library that are declared and called here but whose bodies are not part of
the two source files (the training loops, tc_rmse / tc_mae, the convergence
bookkeeping) are modelled from the spec and say so in their doc comments.
-/

/-- Enumerated completion algorithms, mirroring splatt_tc_type.  The order of
constructors is irrelevant to the claims; SPLATT_TC_NALGS is the sentinel for
an unknown algorithm. -/
inductive splatt_tc_type where
  | GD
  | NLCG
  | LBFGS
  | SGD
  | ALS
  | CCD
  | NALGS
deriving DecidableEq

/-- Name-to-algorithm table, mirroring the static tc_alg_map maps[] array in
cmd_completion.c (the NULL terminator is the end of the Lean list). -/
def maps : List (String × splatt_tc_type) :=
  [ ("gd", splatt_tc_type.GD),
    ("lbfgs", splatt_tc_type.LBFGS),
    ("cg", splatt_tc_type.NLCG),
    ("nlcg", splatt_tc_type.NLCG),
    ("sgd", splatt_tc_type.SGD),
    ("als", splatt_tc_type.ALS),
    ("ccd", splatt_tc_type.CCD) ]

/-- Linear scan of the maps table, mirroring the while loop of parse_tc_alg. -/
def parse_go : List (String × splatt_tc_type) → String → splatt_tc_type
  | [], _ => splatt_tc_type.NALGS
  | p :: rest, arg => if arg = p.1 then p.2 else parse_go rest arg

/-- Translation of parse_tc_alg: scan the maps table with strcmp, returning
SPLATT_TC_NALGS when no name matches. -/
def parse_tc_alg (arg : String) : splatt_tc_type :=
  parse_go maps arg

/-- Written from the words of the spec for the refinement claim C3: the closed
set of algorithm names \x7bgd, lbfgs, cg, nlcg, sgd, als, ccd\x7d each map to
their member, every other string maps to the distinct sentinel. -/
def tc_alg_spec (s : String) : splatt_tc_type :=
  if s = "gd" then splatt_tc_type.GD
  else if s = "lbfgs" then splatt_tc_type.LBFGS
  else if s = "cg" then splatt_tc_type.NLCG
  else if s = "nlcg" then splatt_tc_type.NLCG
  else if s = "sgd" then splatt_tc_type.SGD
  else if s = "als" then splatt_tc_type.ALS
  else if s = "ccd" then splatt_tc_type.CCD
  else splatt_tc_type.NALGS

/-- Parsed command-line state, mirroring struct tc_cmd_args.  ifnames is the
list of positional file names (at most three: train, validate, test). -/
structure tc_cmd_args where
  ifnames : List String
  set_seed : Bool
  seed : Nat
  which_alg : splatt_tc_type
  write : Bool
  learn_rate : ℚ
  reg : ℚ
  set_tolerance : Bool
  tolerance : ℚ
  max_its : Nat
  set_timeout : Bool
  max_seconds : ℚ
  nfactors : Nat
  nthreads : Nat
  rand_per_iteration : Bool
  hogwild : Bool
  folds : Nat
deriving DecidableEq

/-- Translation of default_tc_opts.  The ambient values time(NULL) and
omp_get_max_threads() are passed in as parameters now and ncores.  The
max_seconds and tolerance fields are uninitialized in the C struct and only
read under their set flags; they get 0 here. -/
def default_tc_opts (now ncores : Nat) : tc_cmd_args :=
  { ifnames := []
    set_seed := false
    seed := now
    which_alg := splatt_tc_type.SGD
    write := false
    learn_rate := -1
    reg := -1
    set_tolerance := false
    tolerance := 0
    max_its := 0
    set_timeout := false
    max_seconds := 0
    nfactors := 10
    nthreads := ncores
    rand_per_iteration := true
    hogwild := false
    folds := 1 }

/-- One parsed command-line token, mirroring the argp keys handled by
parse_tc_opt.  Numeric payloads arrive already converted, as strtoull /
strtod / atoi produce them. -/
inductive TcOpt where
  | iters (n : Nat)
  | threads (n : Nat)
  | verbose
  | alg (s : String)
  | nowrite
  | rank (n : Nat)
  | step (x : ℚ)
  | reg (x : ℚ)
  | oseed (n : Nat)
  | otime (x : ℚ)
  | otol (x : ℚ)
  | norand
  | hogwild
  | folds (n : Nat)
  | parg (s : String)
deriving DecidableEq

/-- Translation of the switch body of parse_tc_opt.  Except.error models the
argp_usage calls, which print a usage message and exit the process. -/
def parse_tc_opt (args : tc_cmd_args) (o : TcOpt) : Except Unit tc_cmd_args :=
  match o with
  | TcOpt.iters n => Except.ok { args with max_its := n }
  | TcOpt.threads n => Except.ok { args with nthreads := n }
  | TcOpt.verbose => Except.ok args
  | TcOpt.alg s =>
      if parse_tc_alg s = splatt_tc_type.NALGS then Except.error ()
      else Except.ok { args with which_alg := parse_tc_alg s }
  | TcOpt.nowrite => Except.ok { args with write := false }
  | TcOpt.rank n => Except.ok { args with nfactors := n }
  | TcOpt.step x => Except.ok { args with learn_rate := x }
  | TcOpt.reg x => Except.ok { args with reg := x }
  | TcOpt.oseed n => Except.ok { args with seed := n, set_seed := true }
  | TcOpt.otime x => Except.ok { args with max_seconds := x, set_timeout := true }
  | TcOpt.otol x => Except.ok { args with tolerance := x, set_tolerance := true }
  | TcOpt.norand => Except.ok { args with rand_per_iteration := false }
  | TcOpt.hogwild => Except.ok { args with hogwild := true }
  | TcOpt.folds n => Except.ok { args with folds := n }
  | TcOpt.parg s =>
      if args.ifnames.length = 3 then Except.error ()
      else Except.ok { args with ifnames := args.ifnames ++ [s] }

/-- Fold parse_tc_opt over the token list, stopping at the first usage exit. -/
def parse_opts : List TcOpt → tc_cmd_args → Except Unit tc_cmd_args
  | [], a => Except.ok a
  | o :: rest, a =>
      match parse_tc_opt a o with
      | Except.error e => Except.error e
      | Except.ok a2 => parse_opts rest a2

/-- The ARGP_KEY_END check: train and validate file names must both be
present, otherwise argp_usage exits. -/
def parse_end (a : tc_cmd_args) : Except Unit tc_cmd_args :=
  if a.ifnames.length < 2 then Except.error () else Except.ok a

/-- Full argument parse: defaults, token fold, end check (argp_parse). -/
def parse_all (opts : List TcOpt) (a0 : tc_cmd_args) : Except Unit tc_cmd_args :=
  match parse_opts opts a0 with
  | Except.error e => Except.error e
  | Except.ok a => parse_end a

/-- True exactly when parsing ended in an argp_usage exit. -/
def is_usage_exit : Except Unit tc_cmd_args → Bool
  | Except.error _ => true
  | Except.ok _ => false

/-- Seed of a parse result; 0 for a usage exit (the process is gone then). -/
def seed_of : Except Unit tc_cmd_args → Nat
  | Except.error _ => 0
  | Except.ok a => a.seed

/-- Workspace fields touched by the override block of splatt_tc_cmd.  The
regularization array has one entry per mode of the training tensor. -/
structure tc_ws where
  learn_rate : ℚ
  regularization : List ℚ
  max_its : Nat
  max_seconds : ℚ
  tolerance : ℚ
  rand_per_iteration : Bool
  hogwild : Bool
  folds : Nat
deriving DecidableEq

/-- Translation of the override block of splatt_tc_cmd (the sequence of
checks for non-default values, followed by the unconditional copies of
rand_per_iteration, hogwild and folds). -/
def apply_overrides (args : tc_cmd_args) (ws : tc_ws) : tc_ws :=
  let ws1 := if args.learn_rate ≠ -1 then { ws with learn_rate := args.learn_rate } else ws
  let ws2 := if args.reg ≠ -1 then
      { ws1 with regularization := ws1.regularization.map (fun _ => args.reg) } else ws1
  let ws3 := if args.max_its ≠ 0 then { ws2 with max_its := args.max_its } else ws2
  let ws4 := if args.set_timeout then { ws3 with max_seconds := args.max_seconds } else ws3
  let ws5 := if args.set_tolerance then { ws4 with tolerance := args.tolerance } else ws4
  { ws5 with rand_per_iteration := args.rand_per_iteration,
             hogwild := args.hogwild,
             folds := args.folds }

/-- C3: parse_tc_alg maps each name of the closed set to its algorithm and
every other string to the sentinel SPLATT_TC_NALGS, and the argument-parsing
case for the alg option performs a usage exit exactly when it receives the
sentinel. -/
theorem C3_parse_tc_alg_closed_set :
    ∀ (s : String) (args : tc_cmd_args),
      parse_tc_alg s = tc_alg_spec s ∧
      is_usage_exit (parse_tc_opt args (TcOpt.alg s)) =
        decide (parse_tc_alg s = splatt_tc_type.NALGS) := by
  intro s args
  constructor
  · simp only [parse_tc_alg, parse_go, maps, tc_alg_spec]
  · by_cases h : parse_tc_alg s = splatt_tc_type.NALGS <;>
      simp [parse_tc_opt, is_usage_exit, h]

/-- C4: each workspace override is applied exactly when the parsed value is
not its sentinel (-1 for learn rate and regularization, 0 for max_its, the
recorded set flag for max_seconds and tolerance); otherwise the workspace
default is left untouched. -/
theorem C4_overrides_iff_non_sentinel :
    ∀ (args : tc_cmd_args) (ws : tc_ws),
      (apply_overrides args ws).learn_rate =
        (if args.learn_rate = -1 then ws.learn_rate else args.learn_rate) ∧
      (apply_overrides args ws).regularization =
        (if args.reg = -1 then ws.regularization
         else ws.regularization.map (fun _ => args.reg)) ∧
      (apply_overrides args ws).max_its =
        (if args.max_its = 0 then ws.max_its else args.max_its) ∧
      (apply_overrides args ws).max_seconds =
        (if args.set_timeout then args.max_seconds else ws.max_seconds) ∧
      (apply_overrides args ws).tolerance =
        (if args.set_tolerance then args.tolerance else ws.tolerance) := by
  intro args ws
  simp only [apply_overrides]
  split_ifs <;> simp_all

/-- One data line of a tensor file, already split into its whitespace
separated tokens: the 1-based indices of each mode followed by the value.
Comment and empty lines are skipped identically by both passes of the loader
and are therefore not represented. -/
structure RawLine where
  inds : List Nat
  val : ℚ
deriving DecidableEq

/-- Mode count derived from the first data line, as the first getline loop of
tt_get_layer_dims does: tokens of the first line minus one (the value).  An
empty file leaves the idx_t counter at 0 and the decrement wraps. -/
def nmodes_of (file : List RawLine) : Nat :=
  match file with
  | [] => 2 ^ 64 - 1
  | l :: _ => l.inds.length

/-- The skip test of both loader passes: the 0-based mode-0 index (token
minus one) falls outside the layer range [s, e). -/
def line_skip (s e : Nat) (l : RawLine) : Bool :=
  decide (l.inds.headD 1 - 1 < s) || decide (e ≤ l.inds.headD 1 - 1)

/-- Pass-1 nnz count of tt_get_layer_dims: lines whose mode-0 index is in the
layer range. -/
def tt_count_layer_nnz (s e : Nat) (file : List RawLine) : Nat :=
  (file.filter (fun l => ! line_skip s e l)).length

/-- Pass-1 dimension scan of tt_get_layer_dims: per-mode running maximum of
ind + 1 over every line (skipped lines included), after which dims[0] is
overwritten with the layer extent layer_end - layer_start. -/
def tt_layer_dims (s e nmodes : Nat) (file : List RawLine) : List Nat :=
  (file.foldl
      (fun dims l => (dims.zip l.inds).map (fun p => max p.1 ((p.2 - 1) + 1)))
      (List.replicate nmodes 0)).set 0 (e - s)

/-- Translation of tt_get_layer_dims: mode count, in-layer nnz, dimensions. -/
def tt_get_layer_dims (s e : Nat) (file : List RawLine) : Nat × Nat × List Nat :=
  (nmodes_of file, tt_count_layer_nnz s e file, tt_layer_dims s e (nmodes_of file) file)

/-- Index rebasing of the second pass of the validate-tensor read in
splatt_tc_cmd: mode-0 index becomes ind - 1 - layer_start, the other modes
keep ind - 1. -/
def rebase_line (s : Nat) (l : RawLine) : List Nat × ℚ :=
  match l.inds with
  | [] => ([], l.val)
  | i0 :: rest => ((i0 - 1 - s) :: rest.map (fun i => i - 1), l.val)

/-- Translation of the second pass of the validate-tensor read in
splatt_tc_cmd: kept lines are materialized in file order at consecutive nnz
slots, with rebased indices. -/
def tt_fill_layer (s e : Nat) (file : List RawLine) : List (List Nat × ℚ) :=
  (file.filter (fun l => ! line_skip s e l)).map (rebase_line s)

/-- Written from the words of the spec for claim C2: a line is materialized
exactly when its 0-based mode-0 index lies in [layer_start, layer_end). -/
def line_in_layer (s e : Nat) (l : RawLine) : Bool :=
  decide (s ≤ l.inds.headD 1 - 1) && decide (l.inds.headD 1 - 1 < e)

lemma not_skip_eq_in_layer (s e : Nat) (l : RawLine) :
    (! line_skip s e l) = line_in_layer s e l := by
  simp only [line_skip, line_in_layer, Bool.not_or, ← decide_not, Nat.not_lt,
    Nat.not_le]

lemma headD_set_zero {α : Type} (l : List α) (x d : α) (h : l ≠ []) :
    (l.set 0 x).headD d = x := by
  cases l with
  | nil => exact absurd rfl h
  | cons a t => rfl

lemma foldl_dims_length :
    ∀ (file : List RawLine) (m : Nat) (dims0 : List Nat),
      (∀ l ∈ file, l.inds.length = m) → dims0.length = m →
      (file.foldl
        (fun dims l => (dims.zip l.inds).map (fun p => max p.1 ((p.2 - 1) + 1)))
        dims0).length = m
  | [], _, dims0, _, h0 => by simpa using h0
  | l :: rest, m, dims0, h, h0 => by
      simp only [List.foldl_cons]
      apply foldl_dims_length rest m _ (fun x hx => h x (List.mem_cons_of_mem _ hx))
      have hl : l.inds.length = m := h l (List.mem_cons_self _ _)
      simp [h0, hl]

/-- C2: the distributed validate loader keeps exactly the lines whose 0-based
mode-0 index lies in [layer_start, layer_end): pass 1 counts them as nnz and
sets dims[0] to the layer extent, pass 2 stores them in order with the mode-0
index rebased by layer_start, and every stored mode-0 index is strictly below
dims[0]. -/
theorem C2_layer_load_filters_and_rebases :
    ∀ (s e nmodes : Nat) (file : List RawLine),
      (∀ l ∈ file, l.inds.length = nmodes) →
      (∀ l ∈ file, ∀ i ∈ l.inds, 1 ≤ i) →
      s ≤ e →
      0 < nmodes →
      (tt_get_layer_dims s e file).2.1 = (file.filter (line_in_layer s e)).length ∧
      (tt_get_layer_dims s e file).2.2.headD 0 = e - s ∧
      tt_fill_layer s e file = (file.filter (line_in_layer s e)).map (rebase_line s) ∧
      (tt_fill_layer s e file).map (fun p => p.1.headD 0) =
        (file.filter (line_in_layer s e)).map (fun l => l.inds.headD 1 - 1 - s) ∧
      ∀ p ∈ tt_fill_layer s e file, p.1.headD 0 < e - s := by
  intro s e nmodes file h1 h2 h3 h4
  have hfilter : (fun l => ! line_skip s e l) = line_in_layer s e := by
    funext l; exact not_skip_eq_in_layer s e l
  have hnm : nmodes_of file = nmodes ∨ file = [] := by
    cases file with
    | nil => exact Or.inr rfl
    | cons l rest =>
        exact Or.inl (h1 l (List.mem_cons_self _ _))
  refine ⟨?_, ?_, ?_, ?_, ?_⟩
  · simp only [tt_get_layer_dims, tt_count_layer_nnz, hfilter]
  · show (tt_layer_dims s e (nmodes_of file) file).headD 0 = e - s
    simp only [tt_layer_dims]
    apply headD_set_zero
    intro hnil
    rcases hnm with hnm | hnm
    · have hlen := foldl_dims_length file nmodes (List.replicate (nmodes_of file) 0)
        h1 (by rw [hnm]; exact List.length_replicate _ _)
      rw [hnil] at hlen
      simp only [List.length_nil] at hlen
      omega
    · subst hnm
      have hlen := congrArg List.length hnil
      simp only [List.foldl_nil, List.length_replicate, List.length_nil] at hlen
      have hval : nmodes_of ([] : List RawLine) = 2 ^ 64 - 1 := rfl
      rw [hval] at hlen
      norm_num at hlen
  · simp only [tt_fill_layer, hfilter]
  · simp only [tt_fill_layer, hfilter, List.map_map]
    apply List.map_congr_left
    intro l hl
    have hmem := List.mem_filter.mp hl
    have hlen : l.inds.length = nmodes := h1 l hmem.1
    rcases hi : l.inds with _ | ⟨i0, rest⟩
    · rw [hi] at hlen; simp at hlen; omega
    · simp [rebase_line, hi]
  · intro p hp
    simp only [tt_fill_layer] at hp
    rcases List.mem_map.mp hp with ⟨l, hl, hpl⟩
    have hmem := List.mem_filter.mp hl
    have hlen : l.inds.length = nmodes := h1 l hmem.1
    have hin : line_in_layer s e l = true := by
      rw [← not_skip_eq_in_layer]; exact hmem.2
    simp only [line_in_layer, Bool.and_eq_true, decide_eq_true_eq] at hin
    rcases hi : l.inds with _ | ⟨i0, rest⟩
    · rw [hi] at hlen; simp at hlen; omega
    · subst hpl
      simp only [rebase_line, hi]
      rw [hi] at hin
      simp only [List.headD_cons] at hin ⊢
      omega

/-- Witness for C2 at a concrete two-line file with layer range [2, 4). -/
theorem C2_layer_load_witness :
    (tt_get_layer_dims 2 4 [⟨[3, 1, 2], 5⟩, ⟨[1, 2, 2], 7⟩]).2.1 =
      ([⟨[3, 1, 2], 5⟩, ⟨[1, 2, 2], (7 : ℚ)⟩].filter (line_in_layer 2 4)).length ∧
    (tt_get_layer_dims 2 4 [⟨[3, 1, 2], 5⟩, ⟨[1, 2, 2], 7⟩]).2.2.headD 0 = 4 - 2 ∧
    ∀ p ∈ tt_fill_layer 2 4 [⟨[3, 1, 2], 5⟩, ⟨[1, 2, 2], 7⟩], p.1.headD 0 < 4 - 2 := by
  have h := C2_layer_load_filters_and_rebases 2 4 3
    [⟨[3, 1, 2], 5⟩, ⟨[1, 2, 2], 7⟩]
    (by intro l hl; fin_cases hl <;> rfl)
    (by intro l hl; fin_cases hl <;> (intro i hi; fin_cases hi <;> omega))
    (by omega) (by omega)
  exact ⟨h.1, h.2.1, h.2.2.2.2⟩

/-- Observable side effects of splatt_tc_cmd, in program order. -/
inductive Ev where
  | readTrain
  | trainRun
  | readTest
  | writeOutput
deriving DecidableEq

/-- Exit status of splatt_tc_cmd. -/
inductive ExitCode where
  | success
  | badInput
deriving DecidableEq

/-- Control-flow skeleton of splatt_tc_cmd on the MPI build path: read the
training tensor, open and load the validate file (a failed fopen or a mode
count above MAX_NMODES returns SPLATT_ERROR_BADINPUT), check the train
tensor for NULL, run the selected training loop, report, read the test
tensor when a third file name was given (NULL returns
SPLATT_ERROR_BADINPUT), and finally write the per-mode factor files only
when args.write is set.  valFile = none models a failed fopen of the
validate file; trainOk / testOk model the NULL checks on the loaded
tensors.  maxNModes stands for the compile-time MAX_NMODES constant. -/
def splatt_tc_run (args : tc_cmd_args) (maxNModes : Nat) (trainOk : Bool)
    (valFile : Option (List RawLine)) (testOk : Bool) : List Ev × ExitCode :=
  match valFile with
  | none => ([Ev.readTrain], ExitCode.badInput)
  | some file =>
      if maxNModes < nmodes_of file then ([Ev.readTrain], ExitCode.badInput)
      else if !trainOk then ([Ev.readTrain], ExitCode.badInput)
      else if 2 < args.ifnames.length then
        if !testOk then ([Ev.readTrain, Ev.trainRun, Ev.readTest], ExitCode.badInput)
        else if args.write then
          ([Ev.readTrain, Ev.trainRun, Ev.readTest, Ev.writeOutput], ExitCode.success)
        else ([Ev.readTrain, Ev.trainRun, Ev.readTest], ExitCode.success)
      else if args.write then
        ([Ev.readTrain, Ev.trainRun, Ev.writeOutput], ExitCode.success)
      else ([Ev.readTrain, Ev.trainRun], ExitCode.success)

/-- Concrete arguments with three positional files, used to exhibit the test
file condition. -/
def args_three_files : tc_cmd_args :=
  { default_tc_opts 0 4 with ifnames := ["tr.tns", "va.tns", "te.tns"] }

/-- Counterexample to C5 as stated: with a missing test file, splatt_tc_cmd
does return SPLATT_ERROR_BADINPUT, but only after the training loop has run,
because the test tensor is read after training; so the BadInput return does
not precede every training step. -/
theorem C5_badinput_counterexample :
    (splatt_tc_run args_three_files 8 true (some [⟨[1, 1, 1], 1⟩]) false).2 =
      ExitCode.badInput ∧
    (splatt_tc_run args_three_files 8 true (some [⟨[1, 1, 1], 1⟩]) false).1.contains
      Ev.trainRun = true := by
  constructor <;> rfl

/-- C5 amended: every BadInput condition makes splatt_tc_cmd return
SPLATT_ERROR_BADINPUT and no output file is ever written on such a run; the
train-file, validate-file and mode-count conditions return before any
training step, while a missing test file is detected only after training but
still before the output write. -/
theorem C5_badinput_no_partial_output :
    ∀ (args : tc_cmd_args) (maxNModes : Nat) (trainOk : Bool)
      (valFile : Option (List RawLine)) (testOk : Bool),
      ((splatt_tc_run args maxNModes trainOk valFile testOk).2 = ExitCode.badInput →
        (splatt_tc_run args maxNModes trainOk valFile testOk).1.contains
          Ev.writeOutput = false) ∧
      (valFile = none →
        (splatt_tc_run args maxNModes trainOk valFile testOk).2 = ExitCode.badInput ∧
        (splatt_tc_run args maxNModes trainOk valFile testOk).1.contains
          Ev.trainRun = false) ∧
      (trainOk = false →
        (splatt_tc_run args maxNModes trainOk valFile testOk).2 = ExitCode.badInput ∧
        (splatt_tc_run args maxNModes trainOk valFile testOk).1.contains
          Ev.trainRun = false) ∧
      (∀ file, valFile = some file → maxNModes < nmodes_of file →
        (splatt_tc_run args maxNModes trainOk valFile testOk).2 = ExitCode.badInput ∧
        (splatt_tc_run args maxNModes trainOk valFile testOk).1.contains
          Ev.trainRun = false) ∧
      (2 < args.ifnames.length → testOk = false →
        (splatt_tc_run args maxNModes trainOk valFile testOk).2 = ExitCode.badInput ∧
        (splatt_tc_run args maxNModes trainOk valFile testOk).1.contains
          Ev.writeOutput = false) := by
  intro args maxNModes trainOk valFile testOk
  cases valFile with
  | none =>
      refine ⟨fun _ => rfl, fun _ => ⟨rfl, rfl⟩, fun _ => ⟨rfl, rfl⟩, ?_, ?_⟩
      · intro file hfile; exact absurd hfile (by simp)
      · intro _ _; exact ⟨rfl, rfl⟩
  | some file =>
      by_cases hm : maxNModes < nmodes_of file
      · refine ⟨?_, ?_, ?_, ?_, ?_⟩ <;>
          simp [splatt_tc_run, hm]
      · by_cases ht : trainOk
        · by_cases h3 : 2 < args.ifnames.length
          · by_cases hte : testOk
            · by_cases hw : args.write
              · refine ⟨?_, ?_, ?_, ?_, ?_⟩ <;>
                  simp [splatt_tc_run, hm, ht, h3, hte, hw] <;> omega
              · refine ⟨?_, ?_, ?_, ?_, ?_⟩ <;>
                  simp [splatt_tc_run, hm, ht, h3, hte, hw] <;> omega
            · refine ⟨?_, ?_, ?_, ?_, ?_⟩ <;>
                simp [splatt_tc_run, hm, ht, h3, hte] <;> omega
          · by_cases hw : args.write
            · refine ⟨?_, ?_, ?_, ?_, ?_⟩ <;>
                simp [splatt_tc_run, hm, ht, h3, hw] <;> omega
            · refine ⟨?_, ?_, ?_, ?_, ?_⟩ <;>
                simp [splatt_tc_run, hm, ht, h3, hw] <;> omega
        · simp only [Bool.not_eq_true] at ht
          refine ⟨?_, ?_, ?_, ?_, ?_⟩ <;>
            simp [splatt_tc_run, hm, ht]

/-- Witness for C5 amended, applying it at a run with a missing validate
file and at a run with a missing test file. -/
theorem C5_badinput_witness :
    ((splatt_tc_run args_three_files 8 true none true).2 = ExitCode.badInput ∧
      (splatt_tc_run args_three_files 8 true none true).1.contains
        Ev.trainRun = false) ∧
    ((splatt_tc_run args_three_files 8 true (some [⟨[1, 1, 1], 1⟩]) false).1.contains
        Ev.writeOutput = false) := by
  have h1 := C5_badinput_no_partial_output args_three_files 8 true none true
  have h2 := C5_badinput_no_partial_output args_three_files 8 true
    (some [⟨[1, 1, 1], 1⟩]) false
  exact ⟨h1.2.1 rfl, (h2.2.2.2.2 (by decide) rfl).2⟩

/-- Write flag of a parse result; a usage exit never reaches the write. -/
def write_of : Except Unit tc_cmd_args → Bool
  | Except.error _ => false
  | Except.ok a => a.write

lemma parse_opts_write_false :
    ∀ (opts : List TcOpt) (a : tc_cmd_args), a.write = false →
      write_of (parse_opts opts a) = false
  | [], a => by
      intro hw
      simpa [parse_opts, write_of] using hw
  | o :: rest, a => by
      intro hw
      simp only [parse_opts]
      rcases ho : parse_tc_opt a o with e | a1
      · simp [write_of]
      · have h1 : a1.write = false := by
          cases o <;> simp only [parse_tc_opt] at ho <;>
            (try split_ifs at ho) <;>
            first
              | (simp only [Except.ok.injEq] at ho; rw [← ho]; try simp [hw])
              | simp_all
        exact parse_opts_write_false rest a1 h1

lemma splatt_tc_run_no_write (args : tc_cmd_args) (hw : args.write = false)
    (maxNModes : Nat) (trainOk : Bool) (valFile : Option (List RawLine))
    (testOk : Bool) :
    (splatt_tc_run args maxNModes trainOk valFile testOk).1.contains
      Ev.writeOutput = false := by
  cases valFile with
  | none => rfl
  | some file =>
      simp only [splatt_tc_run]
      split_ifs <;> simp_all <;> rfl

/-- C9: no accepted command line can turn the write flag on — the default is
false and the only related option, nowrite, also sets it false — so the run
never emits the per-mode factor-matrix output files. -/
theorem C9_write_flag_always_false :
    ∀ (opts : List TcOpt) (now ncores : Nat) (args : tc_cmd_args),
      parse_all opts (default_tc_opts now ncores) = Except.ok args →
      args.write = false ∧
      ∀ (maxNModes : Nat) (trainOk : Bool) (valFile : Option (List RawLine))
        (testOk : Bool),
        (splatt_tc_run args maxNModes trainOk valFile testOk).1.contains
          Ev.writeOutput = false := by
  intro opts now ncores args h
  have hw : args.write = false := by
    have hstep := parse_opts_write_false opts (default_tc_opts now ncores) rfl
    simp only [parse_all] at h
    rcases hp : parse_opts opts (default_tc_opts now ncores) with e | a
    · rw [hp] at h; cases h
    · rw [hp] at h
      rw [hp] at hstep
      simp only [parse_end] at h
      split_ifs at h
      cases h
      simpa [write_of] using hstep
  exact ⟨hw, fun maxNModes trainOk valFile testOk =>
    splatt_tc_run_no_write args hw maxNModes trainOk valFile testOk⟩

/-- Arguments produced by parsing exactly two positional file names. -/
def args_two_files : tc_cmd_args :=
  { default_tc_opts 0 4 with ifnames := ["tr.tns", "va.tns"] }

/-- Witness for C9 at the concrete command line with two file names. -/
theorem C9_write_flag_witness :
    args_two_files.write = false ∧
    (splatt_tc_run args_two_files 8 true none true).1.contains
      Ev.writeOutput = false := by
  have h := C9_write_flag_always_false
    [TcOpt.parg "tr.tns", TcOpt.parg "va.tns"] 0 4 args_two_files rfl
  exact ⟨h.1, h.2 8 true none true⟩

/-- Wrap-around bound of the 64-bit unsigned idx_t type. -/
def U64 : Nat := 2 ^ 64

/-- Inner loop of the C function with two leading underscores, max_tensize,
in tucker.c: the running ncols product over all modes except m, with every
idx_t multiplication taken mod 2^64. -/
def max_tensize_ncols (nmodes : Nat) (nfactors : Nat → Nat) (m : Nat) : Nat :=
  (List.range nmodes).foldl
    (fun nc m2 => if m = m2 then nc else nc * nfactors m2 % U64) 1

/-- Translation of the outer loop of max_tensize in tucker.c: running SS_MAX
of nrows * ncols over all modes, with the idx_t product taken mod 2^64. -/
def max_tensize (nmodes : Nat) (nfactors tdims : Nat → Nat) : Nat :=
  (List.range nmodes).foldl
    (fun maxdim m => max maxdim (tdims m * max_tensize_ncols nmodes nfactors m % U64)) 0

/-- Written from the words of claim C10: the product of nfactors over all
modes distinct from m. -/
def prod_except (nmodes : Nat) (nfactors : Nat → Nat) (m : Nat) : Nat :=
  (((List.range nmodes).filter (fun m2 => decide (m ≠ m2))).map nfactors).prod

lemma foldl_mod_mul (f : Nat → Nat) (m : Nat) :
    ∀ (l : List Nat) (a : Nat),
      l.foldl (fun nc m2 => if m = m2 then nc else nc * f m2 % U64) (a % U64) =
        (a * ((l.filter (fun m2 => decide (m ≠ m2))).map f).prod) % U64 := by
  intro l
  induction l with
  | nil => intro a; simp
  | cons x xs ih =>
      intro a
      by_cases hx : m = x
      · subst hx
        have hfil : List.filter (fun m2 => decide (m ≠ m2)) (m :: xs) =
            List.filter (fun m2 => decide (m ≠ m2)) xs := by
          simp
        rw [List.foldl_cons, if_pos rfl, hfil]
        exact ih a
      · have hfil : List.filter (fun m2 => decide (m ≠ m2)) (x :: xs) =
            x :: List.filter (fun m2 => decide (m ≠ m2)) xs := by
          simp [hx]
        rw [List.foldl_cons, if_neg hx, Nat.mod_mul_mod, ih (a * f x), hfil,
          List.map_cons, List.prod_cons, ← mul_assoc]

lemma max_tensize_ncols_eq (nmodes : Nat) (nfactors : Nat → Nat) (m : Nat) :
    max_tensize_ncols nmodes nfactors m = prod_except nmodes nfactors m % U64 := by
  have h1 : (1 : Nat) = 1 % U64 :=
    (Nat.mod_eq_of_lt (by norm_num [U64])).symm
  simp only [max_tensize_ncols, prod_except]
  rw [h1, foldl_mod_mul nfactors m (List.range nmodes) 1, Nat.one_mul]

lemma foldl_max_range (g : Nat → Nat) :
    ∀ (n : Nat) (a : Nat),
      (List.range n).foldl (fun acc m => max acc (g m)) a =
        max a ((Finset.range n).sup g) := by
  intro n
  induction n with
  | zero => intro a; simp
  | succ k ih =>
      intro a
      rw [List.range_succ, List.foldl_append, ih a]
      simp only [List.foldl_cons, List.foldl_nil, Finset.range_succ,
        Finset.sup_insert]
      omega

/-- C10: in the absence of idx_t overflow, max_tensize returns the maximum
over modes m of tdims[m] times the product of nfactors over the other
modes. -/
theorem C10_max_tensize_eq_sup :
    ∀ (nmodes : Nat) (nfactors tdims : Nat → Nat),
      0 < nmodes →
      (∀ m, m < nmodes → tdims m * prod_except nmodes nfactors m < U64) →
      max_tensize nmodes nfactors tdims =
        (Finset.range nmodes).sup (fun m => tdims m * prod_except nmodes nfactors m) := by
  intro nmodes nfactors tdims hpos hbound
  have hitem : ∀ m, m < nmodes →
      tdims m * max_tensize_ncols nmodes nfactors m % U64 =
        tdims m * prod_except nmodes nfactors m := by
    intro m hm
    rw [max_tensize_ncols_eq]
    have hP := hbound m hm
    rw [← Nat.mod_eq_of_lt hP]
    conv_lhs => rw [Nat.mul_mod]
    conv_rhs => rw [Nat.mul_mod]
    rw [Nat.mod_mod_of_dvd _ (dvd_refl U64)]
  simp only [max_tensize]
  rw [foldl_max_range (fun m => tdims m * max_tensize_ncols nmodes nfactors m % U64)
    nmodes 0]
  rw [max_eq_right (Nat.zero_le _)]
  exact Finset.sup_congr rfl (fun m hm => hitem m (Finset.mem_range.mp hm))

/-- Witness for C10 at nmodes = 2, nfactors = [3, 5], tdims = [7, 11]. -/
theorem C10_max_tensize_witness :
    max_tensize 2 (fun m => [3, 5].getD m 0) (fun m => [7, 11].getD m 0) =
      (Finset.range 2).sup
        (fun m => [7, 11].getD m 0 * prod_except 2 (fun m2 => [3, 5].getD m2 0) m) := by
  apply C10_max_tensize_eq_sup 2 (fun m => [3, 5].getD m 0) (fun m => [7, 11].getD m 0)
    (by omega)
  decide

/-- Factor model: one dense matrix per mode, stored as rows of rank many
rational values (tc_model factors). -/
abbrev Model := List (List (List ℚ))

/-- One stored tensor nonzero: 0-based indices per mode and the value. -/
structure SpEntry where
  inds : List Nat
  val : ℚ
deriving DecidableEq

/-- Modelled from the spec: the predicted value of section 4.3 and 4.4 (the
body of tc_predict lives in the completion library, not in the two source
files): the sum over the rank dimension of the product over modes of the
corresponding factor-row entries. -/
def tc_predict (rank : Nat) (model : Model) (inds : List Nat) : ℚ :=
  ((List.range rank).map
    (fun r => ((model.zip inds).map (fun p => (p.1.getD p.2 []).getD r 0)).prod)).sum

/-- Signed error of a model on one entry. -/
def err_of (rank : Nat) (model : Model) (en : SpEntry) : ℚ :=
  en.val - tc_predict rank model en.inds

/-- Modelled from the spec: the absolute-error accumulator of the evaluator
(section 4.4; tc_mae is not among the source files). -/
def abs_err_sum (rank : Nat) (model : Model) (es : List SpEntry) : ℚ :=
  (es.map (fun en => |err_of rank model en|)).sum

/-- Modelled from the spec: the squared-error accumulator of the evaluator
(section 4.4; tc_rmse is not among the source files).  The reported RMSE is
the square root of this sum divided by nnz. -/
def sq_err_sum (rank : Nat) (model : Model) (es : List SpEntry) : ℚ :=
  (es.map (fun en => err_of rank model en * err_of rank model en)).sum

/-- Single-worker mean absolute error over a full tensor. -/
def tc_mae_seq (rank : Nat) (model : Model) (es : List SpEntry) : ℚ :=
  abs_err_sum rank model es / (es.length : ℚ)

/-- Single-worker mean squared error (the RMSE radicand) over a full
tensor. -/
def tc_msq_seq (rank : Nat) (model : Model) (es : List SpEntry) : ℚ :=
  sq_err_sum rank model es / (es.length : ℚ)

/-- The MPI_Allreduce MPI_SUM contract over one scalar per rank. -/
def allreduce_sum_nat (xs : List Nat) : Nat := xs.sum

/-- The MPI_Allreduce MPI_SUM contract over one rational per rank. -/
def allreduce_sum_rat (xs : List ℚ) : ℚ := xs.sum

/-- Translation of lines 411-412 of cmd_completion.c: each rank starts from
its local validate nnz and the value is sum-reduced over all ranks. -/
def global_validate_nnz (locals : List (List SpEntry)) : Nat :=
  allreduce_sum_nat (locals.map (fun t => t.length))

/-- Modelled from the spec: the distributed evaluator of section 4.4 — each
worker accumulates a local absolute-error sum over its partition, the sums
and the nnz counts are sum-reduced, and the quotient is taken on the reduced
values (tc_mae with ws->rinfo set is not among the source files). -/
def tc_mae_mpi (rank : Nat) (model : Model) (locals : List (List SpEntry)) : ℚ :=
  allreduce_sum_rat (locals.map (abs_err_sum rank model)) /
    (global_validate_nnz locals : ℚ)

/-- Modelled from the spec: the distributed squared-error evaluator (the
RMSE radicand), built exactly as tc_mae_mpi. -/
def tc_msq_mpi (rank : Nat) (model : Model) (locals : List (List SpEntry)) : ℚ :=
  allreduce_sum_rat (locals.map (sq_err_sum rank model)) /
    (global_validate_nnz locals : ℚ)

lemma map_sum_join (g : SpEntry → ℚ) :
    ∀ (L : List (List SpEntry)),
      ((L.join).map g).sum = (L.map (fun es => (es.map g).sum)).sum := by
  intro L
  induction L with
  | nil => simp
  | cons es rest ih =>
      show (List.map g (es ++ rest.join)).sum =
        (List.map (fun es2 => (List.map g es2).sum) (es :: rest)).sum
      rw [List.map_append, List.sum_append, ih, List.map_cons, List.sum_cons]

lemma length_join_nat :
    ∀ (L : List (List SpEntry)), (L.join).length = (L.map (fun t => t.length)).sum := by
  intro L
  induction L with
  | nil => simp
  | cons es rest ih => simp [ih]

/-- C1: the validation statistics reported in distributed mode come from the
sum reduction: the reported nnz equals the sum of the per-worker local nnz
counts, which is the nnz of the full tensor whenever the local partitions
concatenate to it, and on such a partition the distributed MAE and the
distributed mean squared error (the RMSE radicand; RMSE itself is its square
root, so equal radicands give equal RMSE) coincide exactly with the
single-worker evaluator on the full tensor. -/
theorem C1_distributed_validation_reduction :
    ∀ (rank : Nat) (model : Model) (locals : List (List SpEntry))
      (full : List SpEntry),
      locals.join = full →
      global_validate_nnz locals = full.length ∧
      tc_mae_mpi rank model locals = tc_mae_seq rank model full ∧
      tc_msq_mpi rank model locals = tc_msq_seq rank model full := by
  intro rank model locals full hjoin
  subst hjoin
  have hlen : global_validate_nnz locals = (locals.join).length := by
    simp only [global_validate_nnz, allreduce_sum_nat, length_join_nat]
  refine ⟨hlen, ?_, ?_⟩
  · simp only [tc_mae_mpi, tc_mae_seq, allreduce_sum_rat, abs_err_sum, hlen]
    rw [map_sum_join (fun en => |err_of rank model en|) locals]
    rfl
  · simp only [tc_msq_mpi, tc_msq_seq, allreduce_sum_rat, sq_err_sum, hlen]
    rw [map_sum_join (fun en => err_of rank model en * err_of rank model en) locals]
    rfl

/-- Two-mode rank-1 model used by the C1 witness. -/
def modelW : Model := [[[1], [2]], [[1], [3]]]

/-- Witness for C1 at a three-worker partition with one empty partition. -/
theorem C1_distributed_validation_witness :
    global_validate_nnz [[⟨[0, 0], 2⟩], [], [⟨[1, 1], 3⟩]] =
      ([⟨[0, 0], 2⟩, ⟨[1, 1], (3 : ℚ)⟩] : List SpEntry).length ∧
    tc_mae_mpi 1 modelW [[⟨[0, 0], 2⟩], [], [⟨[1, 1], 3⟩]] =
      tc_mae_seq 1 modelW [⟨[0, 0], 2⟩, ⟨[1, 1], 3⟩] ∧
    tc_msq_mpi 1 modelW [[⟨[0, 0], 2⟩], [], [⟨[1, 1], 3⟩]] =
      tc_msq_seq 1 modelW [⟨[0, 0], 2⟩, ⟨[1, 1], 3⟩] :=
  C1_distributed_validation_reduction 1 modelW
    [[⟨[0, 0], 2⟩], [], [⟨[1, 1], 3⟩]] [⟨[0, 0], 2⟩, ⟨[1, 1], 3⟩] rfl

/-- Modelled from the spec: the deep copy of section 4.1 (tc_model_copy is
not among the source files).  At the value level a deep copy reproduces
every factor entry; the no-aliasing part of the contract concerns memory and
is outside a value-level embedding. -/
def tc_model_clone (m : Model) : Model :=
  m.map (fun rows => rows.map (fun row => row.map id))

/-- Best-model bookkeeping of the workspace: best validation score, the
epoch it was captured at, the consecutive-stall counter and the snapshot. -/
structure ConvState where
  best_rmse : ℚ
  best_epoch : Nat
  nstall : Nat
  best_model : Model
deriving DecidableEq

/-- Modelled from the spec: the VALIDATING transition of section 4.3 (the
convergence bookkeeping lives in the completion library, not in the two
source files): a score that improves on best_rmse - tolerance strictly
clones the live model into the best slot and records the epoch; anything
else, ties included, only increments the stall counter. -/
def tc_converge (tol : ℚ) (epoch : Nat) (score : ℚ) (model : Model)
    (st : ConvState) : ConvState :=
  if score < st.best_rmse - tol then
    { best_rmse := score, best_epoch := epoch, nstall := 0,
      best_model := tc_model_clone model }
  else
    { st with nstall := st.nstall + 1 }

/-- A whole run of validation checks: one tc_converge step per epoch. -/
def run_validation (tol : ℚ) : List (ℚ × Model) → Nat → ConvState → ConvState
  | [], _, st => st
  | p :: rest, e, st =>
      run_validation tol rest (e + 1) (tc_converge tol e p.1 p.2 st)

lemma tc_converge_best_le (tol score : ℚ) (epoch : Nat) (model : Model)
    (st : ConvState) (htol : 0 ≤ tol) :
    (tc_converge tol epoch score model st).best_rmse ≤ st.best_rmse := by
  simp only [tc_converge]
  split_ifs with h
  · linarith
  · exact le_refl _

lemma run_validation_best_le (tol : ℚ) (htol : 0 ≤ tol) :
    ∀ (pairs : List (ℚ × Model)) (e : Nat) (st : ConvState),
      (run_validation tol pairs e st).best_rmse ≤ st.best_rmse
  | [], _, _ => le_refl _
  | p :: rest, e, st => by
      calc (run_validation tol (p :: rest) e st).best_rmse
          ≤ (tc_converge tol e p.1 p.2 st).best_rmse :=
            run_validation_best_le tol htol rest (e + 1) _
        _ ≤ st.best_rmse := tc_converge_best_le tol p.1 e p.2 st htol

/-- C6: across one run, best_rmse is non-increasing; best_epoch moves only
when the score strictly improves on best_rmse by more than the tolerance,
and then the live model is cloned into the best slot; a tie (score equal to
best_rmse - tolerance) changes neither best_rmse nor best_epoch. -/
theorem C6_best_score_monotone :
    ∀ (tol score : ℚ) (epoch : Nat) (model : Model) (st : ConvState),
      0 ≤ tol →
      (tc_converge tol epoch score model st).best_rmse ≤ st.best_rmse ∧
      ((tc_converge tol epoch score model st).best_epoch ≠ st.best_epoch →
        score < st.best_rmse - tol ∧
        (tc_converge tol epoch score model st).best_epoch = epoch ∧
        (tc_converge tol epoch score model st).best_rmse = score ∧
        (tc_converge tol epoch score model st).best_model = tc_model_clone model) ∧
      (score = st.best_rmse - tol →
        (tc_converge tol epoch score model st).best_rmse = st.best_rmse ∧
        (tc_converge tol epoch score model st).best_epoch = st.best_epoch) ∧
      (∀ (pairs : List (ℚ × Model)) (e : Nat),
        (run_validation tol pairs e st).best_rmse ≤ st.best_rmse) := by
  intro tol score epoch model st htol
  refine ⟨tc_converge_best_le tol score epoch model st htol, ?_, ?_, ?_⟩
  · intro hne
    by_cases h : score < st.best_rmse - tol
    · exact ⟨h, by simp [tc_converge, h], by simp [tc_converge, h],
        by simp [tc_converge, h]⟩
    · exact absurd (by simp [tc_converge, h]) hne
  · intro htie
    have h : ¬ score < st.best_rmse - tol := by rw [htie]; exact lt_irrefl _
    exact ⟨by simp [tc_converge, h], by simp [tc_converge, h]⟩
  · intro pairs e
    exact run_validation_best_le tol htol pairs e st

/-- Concrete model and state for the C6 witness. -/
def mW : Model := [[[2]]]

/-- Concrete convergence state for the C6 witness. -/
def stW : ConvState := { best_rmse := 10, best_epoch := 0, nstall := 0, best_model := [[[1]]] }

/-- Witness for C6: an improving score (5 against best 10, tolerance 0) and
a tie score (10 against best 10, tolerance 0). -/
theorem C6_best_score_witness :
    (tc_converge 0 1 5 mW stW).best_rmse ≤ stW.best_rmse ∧
    ((5 : ℚ) < stW.best_rmse - 0 ∧
      (tc_converge 0 1 5 mW stW).best_epoch = 1 ∧
      (tc_converge 0 1 5 mW stW).best_rmse = 5 ∧
      (tc_converge 0 1 5 mW stW).best_model = tc_model_clone mW) ∧
    ((tc_converge 0 1 10 mW stW).best_rmse = stW.best_rmse ∧
      (tc_converge 0 1 10 mW stW).best_epoch = stW.best_epoch) ∧
    (run_validation 0 [(5, mW)] 1 stW).best_rmse ≤ stW.best_rmse := by
  have h1 := C6_best_score_monotone 0 5 1 mW stW (le_refl 0)
  have h2 := C6_best_score_monotone 0 10 1 mW stW (le_refl 0)
  exact ⟨h1.1, h1.2.1 (by norm_num [tc_converge, stW]), h2.2.2.1 (by simp [stW]),
    h1.2.2.2 [(5, mW)] 1⟩

/-- Modelled from the spec: one step of the outer epoch loop of section 4.3
(the loop bodies of splatt_tc_sgd and its siblings are not among the source
files).  conv e abstracts the 20-stall convergence check after epoch e,
timeUp e the wall-clock check; the MAX_ITERS_REACHED check is maxi nonzero
and the epoch count having reached maxi.  The structural fuel equals maxi in
train_loop, so for maxi positive the max-iterations check fires at or before
fuel exhaustion and the returned value counts executed epochs. -/
def train_loop_go : Nat → Nat → (Nat → Bool) → (Nat → Bool) → Nat → Nat
  | 0, _, _, _, e => e
  | fuel + 1, maxi, conv, timeUp, e =>
      if conv (e + 1) || timeUp (e + 1) ||
          (decide (maxi ≠ 0) && decide (maxi ≤ e + 1)) then e + 1
      else train_loop_go fuel maxi conv timeUp (e + 1)

/-- Modelled from the spec: the whole training loop, returning the number of
epochs executed before one of the three stop conditions fired. -/
def train_loop (maxi : Nat) (conv timeUp : Nat → Bool) : Nat :=
  train_loop_go maxi maxi conv timeUp 0

lemma train_loop_go_le :
    ∀ (fuel maxi : Nat) (conv timeUp : Nat → Bool) (e : Nat),
      train_loop_go fuel maxi conv timeUp e ≤ e + fuel
  | 0, _, _, _, e => le_refl _
  | fuel + 1, maxi, conv, timeUp, e => by
      simp only [train_loop_go]
      split_ifs
      · omega
      · have := train_loop_go_le fuel maxi conv timeUp (e + 1)
        omega

/-- C7: with a finite positive max_its the loop executes at most max_its
epochs, whatever the convergence and timeout predicates do. -/
theorem C7_max_its_bounds_epochs :
    ∀ (maxi : Nat) (conv timeUp : Nat → Bool),
      0 < maxi →
      train_loop maxi conv timeUp ≤ maxi := by
  intro maxi conv timeUp _
  have := train_loop_go_le maxi maxi conv timeUp 0
  simpa [train_loop] using this

/-- Witness for C7 with max_its 3 and both other bounds disabled. -/
theorem C7_max_its_witness :
    train_loop 3 (fun _ => false) (fun _ => false) ≤ 3 :=
  C7_max_its_bounds_epochs 3 (fun _ => false) (fun _ => false) (by omega)

/-- Modelled from the spec: a deterministic-given-seed pseudo-random source
(section 4.1 asks only for that property; the C code seeds the libc rand
with srand(args.seed) at line 330 of cmd_completion.c).  A standard linear
congruential step stands in for rand. -/
def lcg (x : Nat) : Nat := (1103515245 * x + 12345) % 2147483648

/-- The k-th pseudo-random rational in [0, 1) drawn from a seed. -/
def rand_val (seed k : Nat) : ℚ := ((lcg^[k + 1]) seed : ℚ) / 2147483648

/-- Modelled from the spec: the factor-model allocation of section 4.1 with
deterministic-given-seed pseudo-random initialization (tc_model_alloc is not
among the source files). -/
def init_model (seed rank : Nat) (dims : List Nat) : Model :=
  (List.range dims.length).map (fun m =>
    (List.range (dims.getD m 0)).map (fun i =>
      (List.range rank).map (fun r =>
        rand_val seed (((dims.take m).sum + i) * rank + r))))

/-- Per-rank product of the factor rows of every mode except m, at the
indices of one entry. -/
def other_prod (rank : Nat) (model : Model) (inds : List Nat) (m : Nat) : List ℚ :=
  (List.range rank).map (fun r =>
    (((model.zip inds).enum.filter (fun p => decide (p.1 ≠ m))).map
      (fun p => (p.2.1.getD p.2.2 []).getD r 0)).prod)

/-- One SGD row update of section 4.3: row + step * (residual * other - reg * row),
coordinatewise over the rank dimension. -/
def update_row (step reg resid : ℚ) (other row : List ℚ) : List ℚ :=
  List.zipWith (fun x o => x + step * (resid * o - reg * x)) row other

/-- Replace row i of mode m of the model. -/
def set_mode_row (model : Model) (m i : Nat) (row : List ℚ) : Model :=
  model.set m ((model.getD m []).set i row)

/-- Modelled from the spec: the per-entry SGD step of section 4.3 (the body
of splatt_tc_sgd is not among the source files): residual from the current
prediction, then sequential mode-by-mode row updates using the freshest row
values. -/
def sgd_update_entry (step reg : ℚ) (rank : Nat) (model : Model)
    (en : SpEntry) : Model :=
  let resid := err_of rank model en
  (List.range en.inds.length).foldl
    (fun md m =>
      let i := en.inds.getD m 0
      let row := (md.getD m []).getD i []
      set_mode_row md m i
        (update_row step reg resid (other_prod rank md en.inds m) row))
    model

/-- Modelled from the spec: one SGD epoch on the deterministic path
(hogwild off, rand_per_iteration off): one pass over the training entries in
their fixed order. -/
def sgd_epoch (step reg : ℚ) (rank : Nat) (train : List SpEntry)
    (model : Model) : Model :=
  train.foldl (sgd_update_entry step reg rank) model

/-- Modelled from the spec: a whole SGD training run on the deterministic
single-worker path: seed-derived initial model, max_its epochs, validation
scored by the mean squared error (the RMSE radicand, which orders scores the
same way RMSE does) with the best-model bookkeeping of tc_converge. -/
def sgd_run (seed rank max_its : Nat) (step reg tol : ℚ) (dims : List Nat)
    (train validate : List SpEntry) : Model × ConvState :=
  let m0 := init_model seed rank dims
  (List.range max_its).foldl
    (fun st e =>
      let m2 := sgd_epoch step reg rank train st.1
      (m2, tc_converge tol (e + 1) (tc_msq_seq rank m2 validate) m2 st.2))
    (m0, { best_rmse := 10 ^ 30, best_epoch := 0, nstall := 0, best_model := m0 })

/-- The concrete 10-entry training tensor of the C8 scenario, dims 4x4x4. -/
def train10 : List SpEntry :=
  [⟨[0, 1, 2], 1⟩, ⟨[1, 2, 3], 2⟩, ⟨[2, 3, 0], 3 / 2⟩, ⟨[3, 0, 1], 1 / 2⟩,
   ⟨[0, 0, 0], 2⟩, ⟨[1, 1, 1], 5 / 2⟩, ⟨[2, 2, 2], 3⟩, ⟨[3, 3, 3], 1⟩,
   ⟨[0, 2, 1], 7 / 4⟩, ⟨[3, 1, 2], 9 / 4⟩]

/-- The concrete validation tensor of the C8 scenario. -/
def validate3 : List SpEntry :=
  [⟨[0, 1, 1], 1⟩, ⟨[2, 0, 3], 2⟩, ⟨[1, 3, 2], 3 / 2⟩]

/-- C8: with an explicit seed the parsed seed does not depend on the wall
clock (two parses of the same command line at different times yield the same
args.seed, the value handed to srand), and two SGD runs of the concrete
scenario (dims 4x4x4, 10 nonzeros, rank 2, max_its 50, tolerance disabled,
hogwild and rand_per_iteration off as modelled by the fixed-order epoch)
from that seed produce identical factor models and identical best
validation score. -/
theorem C8_sgd_two_run_reproducibility :
    ∀ (now1 now2 ncores s : Nat) (fa fb : String),
      seed_of (parse_all [TcOpt.oseed s, TcOpt.parg fa, TcOpt.parg fb]
          (default_tc_opts now1 ncores)) =
        seed_of (parse_all [TcOpt.oseed s, TcOpt.parg fa, TcOpt.parg fb]
          (default_tc_opts now2 ncores)) ∧
      sgd_run (seed_of (parse_all [TcOpt.oseed s, TcOpt.parg fa, TcOpt.parg fb]
            (default_tc_opts now1 ncores))) 2 50 (1 / 1000) (1 / 50) 0 [4, 4, 4]
          train10 validate3 =
        sgd_run (seed_of (parse_all [TcOpt.oseed s, TcOpt.parg fa, TcOpt.parg fb]
            (default_tc_opts now2 ncores))) 2 50 (1 / 1000) (1 / 50) 0 [4, 4, 4]
          train10 validate3 := by
  intro now1 now2 ncores s fa fb
  have hseed : ∀ now : Nat,
      seed_of (parse_all [TcOpt.oseed s, TcOpt.parg fa, TcOpt.parg fb]
        (default_tc_opts now ncores)) = s := fun _ => rfl
  rw [hseed now1, hseed now2]
  exact ⟨rfl, rfl⟩
